import Mathlib

/-!
Verification of the jobmaster vector-backed document store.

This file gives a shallow embedding of the storage layer of the repository
(`src/storage/pg_vector_store.py`, `src/storage/vector_sync.py`, and the
`Application` model in `src/models/application.py`) and proves or refutes
the stated properties of that layer.

Modelling conventions:
* A PostgreSQL `vector_documents` row is a `Doc`; the table is a `List Doc`.
* JSONB values are `JVal`; `->` is `jsonGet`, `->>` is composition with
  `JVal.asText` (SQL `NULL` is `Option.none`).
* Machine floats in embeddings are modelled as rationals (`ℚ`); the pgvector
  cosine-distance operator `<=>` is an explicit function parameter, since it
  is computed by the external database engine.
* A database statement either yields the table contents or fails; this is an
  `Except String` argument.  A Python exception propagating to the caller is
  an `Except.error` result; a caught exception is whatever value the
  `except` clause returns.
* `ORDER BY` is modelled with `List.insertionSort`; PostgreSQL's sort order
  on equal keys is unspecified, and none of the statements below depend on
  the tie-breaking order.
-/

namespace JobMaster

/-- JSON values as stored in the JSONB `metadata` column.  Numbers are
modelled as rationals. -/
inductive JVal where
  | jnull : JVal
  | jbool : Bool → JVal
  | jnum : ℚ → JVal
  | jstr : String → JVal
  | jarr : List JVal → JVal
  | jobj : List (String × JVal) → JVal

/-- First-match lookup in an association list of JSON object fields. -/
def jlookup : List (String × JVal) → String → Option JVal
  | [], _ => none
  | (k, v) :: rest, key => if k = key then some v else jlookup rest key

/-- JSONB `->` on a key: field access, `NULL` (`none`) on a missing key or a
non-object. -/
def jsonGet (v : JVal) (k : String) : Option JVal :=
  match v with
  | .jobj fs => jlookup fs k
  | _ => none

/-- Rendering of a JSON value to text, used by JSONB `->>` when the field is
itself an object or array. -/
def JVal.render : JVal → String
  | .jnull => "null"
  | .jbool true => "true"
  | .jbool false => "false"
  | .jnum q => toString q
  | .jstr s => "\"" ++ s ++ "\""
  | .jarr elems => "[" ++ String.intercalate ", " (elems.attach.map fun e => e.1.render) ++ "]"
  | .jobj fs =>
      "\x7b" ++
        String.intercalate ", "
          (fs.attach.map fun kv => "\"" ++ kv.1.1 ++ "\": " ++ kv.1.2.render) ++
      "\x7d"
decreasing_by
  · have := List.sizeOf_lt_of_mem e.2
    simp_all
    omega
  · rcases kv with ⟨⟨k, v⟩, hm⟩
    have := List.sizeOf_lt_of_mem hm
    simp_all
    omega

/-- JSONB `->>` semantics on a field value: JSON `null` becomes SQL `NULL`,
scalars become their text form, objects and arrays their JSON text. -/
def JVal.asText : JVal → Option String
  | .jnull => none
  | .jbool b => some (cond b "true" "false")
  | .jnum q => some (toString q)
  | .jstr s => some s
  | v => some v.render

/-- Model of `metadata->>k` for a whole metadata value. -/
def metaText (m : JVal) (k : String) : Option String :=
  (jsonGet m k).bind JVal.asText

/-- Model of `metadata->'data'->>k`: `->` on a missing field or non-object yields
`NULL`, which then propagates through `->>`. -/
def dataText (m : JVal) (k : String) : Option String :=
  ((jsonGet m "data").bind fun d => jsonGet d k).bind JVal.asText

/-- Python truthiness of a JSON value decoded by `json.loads` (used by the
`if record:` test in `list_records`). -/
def JVal.truthy : JVal → Bool
  | .jnull => false
  | .jbool b => b
  | .jnum q => decide (q ≠ 0)
  | .jstr s => decide (s ≠ "")
  | .jarr elems => !elems.isEmpty
  | .jobj fs => !fs.isEmpty

/-- Python `dict.get` on a decoded JSONB value: `json.loads` decodes JSON
`null` to Python `None`, so a `jnull` field reads as absent. -/
def pyGet (m : JVal) (k : String) : Option JVal :=
  match jsonGet m k with
  | some .jnull => none
  | v => v

/-- Model of `d[k] = v` on a Python dict, modelled so that first-match lookup sees the
new binding: the key is prepended and older bindings for it are dropped. -/
def dictSet (m : List (String × JVal)) (k : String) (v : JVal) :
    List (String × JVal) :=
  (k, v) :: m.filter fun kv => kv.1 ≠ k

/-- Model of `base.update(extra)` on Python dicts (later keys win on lookup). -/
def dictUpdate (base extra : List (String × JVal)) : List (String × JVal) :=
  extra.foldl (fun m kv => dictSet m kv.1 kv.2) base

/-- Model of `d.pop(k, None)` on a Python dict: remove a key. -/
def dictRemove (m : List (String × JVal)) (k : String) : List (String × JVal) :=
  m.filter fun kv => kv.1 ≠ k

/-- One row of the `vector_documents` table.  `created_at`/`updated_at` are
the server-assigned timestamps, modelled as naturals. -/
structure Doc where
  docId : String
  user_id : String
  collection_name : String
  text : String
  embedding : List ℚ
  metadata : JVal
  created_at : Nat
  updated_at : Nat

/-- The `WHERE user_id = %s AND collection_name = %s` scope that every
operation of `PgVectorStore` puts on its SQL statements. -/
def scopeFilter (db : List Doc) (uid col : String) : List Doc :=
  db.filter fun d => d.user_id = uid ∧ d.collection_name = col

/-- Number of documents of a tenant in a collection, as computed by the
`SELECT COUNT(*)` statements in `_migrate_legacy_user_data`. -/
def countScoped (db : List Doc) (uid col : String) : Nat :=
  (scopeFilter db uid col).length

/-! ## The `Application` model (`src/models/application.py`) -/

/-- A contact link attached to an application. -/
structure ContactLink where
  name : Option String := none
  url : Option String := none
  email : Option String := none
  notes : Option String := none

/-- A timeline event of an application. -/
structure ApplicationEvent where
  date : String
  event_type : String
  notes : Option String := none

/-- The `Application` dataclass.  `match_score` is an optional JSON number,
modelled as a rational. -/
structure Application where
  company : String
  role : String
  status : String
  applied_date : String
  id : String
  job_url : Option String := none
  job_description : Option String := none
  location : Option String := none
  salary_range : Option String := none
  match_score : Option ℚ := none
  notes : Option String := none
  cover_letter : Option String := none
  timeline : List ApplicationEvent := []
  job_requirements : Option JVal := none
  recruiter_contact : Option ContactLink := none
  hiring_manager_contact : Option ContactLink := none
  created_at : String := ""
  updated_at : String := ""

/-- Model of `dataclasses.asdict` on an optional string field: `None` becomes JSON
`null`. -/
def optJ : Option String → JVal
  | none => .jnull
  | some s => .jstr s

/-- Model of `asdict` on a `ContactLink`. -/
def ContactLink.to_dict (c : ContactLink) : JVal :=
  .jobj [("name", optJ c.name), ("url", optJ c.url),
         ("email", optJ c.email), ("notes", optJ c.notes)]

/-- Model of `ApplicationEvent.to_dict`. -/
def ApplicationEvent.to_dict (e : ApplicationEvent) : JVal :=
  .jobj [("date", .jstr e.date), ("event_type", .jstr e.event_type),
         ("notes", optJ e.notes)]

/-- Model of `Application.to_dict`: `asdict` on the dataclass, with timeline events
converted through `ApplicationEvent.to_dict`. -/
def Application.to_dict (app : Application) : JVal :=
  .jobj [("company", .jstr app.company),
         ("role", .jstr app.role),
         ("status", .jstr app.status),
         ("applied_date", .jstr app.applied_date),
         ("id", .jstr app.id),
         ("job_url", optJ app.job_url),
         ("job_description", optJ app.job_description),
         ("location", optJ app.location),
         ("salary_range", optJ app.salary_range),
         ("match_score", match app.match_score with
                         | none => .jnull
                         | some q => .jnum q),
         ("notes", optJ app.notes),
         ("cover_letter", optJ app.cover_letter),
         ("timeline", .jarr (app.timeline.map ApplicationEvent.to_dict)),
         ("job_requirements", match app.job_requirements with
                              | none => .jnull
                              | some v => v),
         ("recruiter_contact", match app.recruiter_contact with
                               | none => .jnull
                               | some c => c.to_dict),
         ("hiring_manager_contact", match app.hiring_manager_contact with
                                    | none => .jnull
                                    | some c => c.to_dict),
         ("created_at", .jstr app.created_at),
         ("updated_at", .jstr app.updated_at)]

/-! ## `vector_sync.py`: text formatting and the delete-then-insert upsert -/

/-- Python `"\n".join(parts)`. -/
def joinLines : List String → String
  | [] => ""
  | [s] => s
  | s :: rest => s ++ "\n" ++ joinLines rest

/-- One optional `parts.append(label + value)` guarded by Python truthiness
of the optional string field. -/
def optPart (label : String) : Option String → List String
  | none => []
  | some s => if s = "" then [] else [label ++ s]

/-- The strings joined by `", ".join(...)` over a JSON array; elements are
the decoded strings (non-strings rendered, which does not occur in the data
written by this repository). -/
def jarrStrings : JVal → List String
  | .jarr elems => elems.attach.map fun e =>
      match e.1 with
      | .jstr s => s
      | v => v.render
  | _ => []

/-- The `Required Skills:`/`Experience Required:` parts contributed by
`app.job_requirements` in `format_application_text`. -/
def jobRequirementParts (reqs : JVal) : List String :=
  if reqs.truthy then
    match reqs with
    | .jobj _ =>
        (match jsonGet reqs "skills" with
         | some sk =>
             if sk.truthy then
               ["Required Skills: " ++ String.intercalate ", " (jarrStrings sk)]
             else []
         | none => []) ++
        (match (jsonGet reqs "experience").bind JVal.asText with
         | some e => if e = "" then [] else ["Experience Required: " ++ e]
         | none => [])
    | _ => []
  else []

/-- The `Recent Timeline:` part: the last three events, formatted. -/
def timelineParts (tl : List ApplicationEvent) : List String :=
  if tl.isEmpty then []
  else
    ["Recent Timeline: " ++
      String.intercalate ", "
        ((tl.drop (tl.length - 3)).map fun e => e.event_type ++ " on " ++ e.date)]

/-- Model of `format_application_text`. -/
def format_application_text (app : Application) : String :=
  joinLines
    (["Job Application: " ++ app.company ++ " - " ++ app.role,
      "Status: " ++ app.status,
      "Applied Date: " ++ app.applied_date] ++
     optPart "Location: " app.location ++
     optPart "Salary Range: " app.salary_range ++
     optPart "Job Description: " app.job_description ++
     optPart "Notes: " app.notes ++
     (match app.job_requirements with
      | some reqs => jobRequirementParts reqs
      | none => []) ++
     timelineParts app.timeline)

/-- Model of `_delete_by_metadata`, applied to the table: the SQL
`DELETE ... WHERE user_id = %s AND collection_name = %s AND metadata->>k = v`
for every pair of the filter (values pass through Python `str`, so they are
strings).  A row whose `metadata->>k` is SQL `NULL` does not match. -/
def delete_by_metadata (db : List Doc) (uid col : String)
    (filt : List (String × String)) : List Doc :=
  db.filter fun d =>
    ¬(d.user_id = uid ∧ d.collection_name = col ∧
      ∀ kv ∈ filt, metaText d.metadata kv.1 = some kv.2)

/-- The row metadata built inside `add_texts`:
`metadata = {"timestamp": now}`, then `metadata.update(provided)`, then
`metadata["text"] = text`. -/
def buildRowMetadata (provided : List (String × JVal)) (text ts : String) :
    JVal :=
  .jobj (dictSet (dictUpdate [("timestamp", .jstr ts)] provided)
          "text" (.jstr text))

/-- Model of `add_texts` specialised to a one-element text list, which is how every
`sync_*` function calls it.  The embedding pipeline (retry plus reduction,
modelled separately below) supplies `emb`; `newId` is the generated UUID and
`now` the server-side insert timestamp. -/
def add_texts_single (db : List Doc) (uid col text : String)
    (provided : List (String × JVal)) (emb : List ℚ) (newId ts : String)
    (now : Nat) : List Doc :=
  db ++ [{ docId := newId, user_id := uid, collection_name := col,
           text := text, embedding := emb,
           metadata := buildRowMetadata provided text ts,
           created_at := now, updated_at := now }]

/-- The metadata dict assembled by `sync_application_to_vector_store`. -/
def applicationSyncMetadata (app : Application) (text ts : String) :
    List (String × JVal) :=
  [("record_type", .jstr "application"),
   ("record_id", .jstr app.id),
   ("data", app.to_dict),
   ("text", .jstr text),
   ("source", .jstr "application"),
   ("application_id", .jstr app.id),
   ("company", .jstr app.company),
   ("role", .jstr app.role),
   ("status", .jstr app.status),
   ("type", .jstr "job_application"),
   ("timestamp", .jstr ts)]

/-! ## `_migrate_legacy_user_data` -/

/-- The fallback tenant identifier. -/
def LEGACY_DEFAULT_USER_ID : String := "default_user"

/-- SQL `uid LIKE 'google_%'`: the literal `google`, one arbitrary character
(`_` is a single-character wildcard), then anything; i.e. the characters of
`uid` start with those of `google` and at least one more follows. -/
def likeGoogleUnderscore (uid : String) : Bool :=
  "google".data.isPrefixOf uid.data && decide (6 < uid.data.length)

/-- The `UPDATE ... SET user_id = uid` of `_migrate_legacy_user_data`,
applied to one row.  The SQL `WHERE` clause is
`user_id = 'default_user' AND collection_name = col AND
 NOT (metadata->>'source' = 'linkedin-job-page' AND uid LIKE 'google_%')`;
under SQL three-valued logic, when `metadata->>'source'` is `NULL` and the
LIKE test is true, the clause evaluates to `NULL` and the row is not
updated. -/
def migrateSourceGuard (uid : String) (src : Option String) : Bool :=
  if likeGoogleUnderscore uid then
    match src with
    | some s => s != "linkedin-job-page"
    | none => false
  else true

/-- The full row condition of the migration `UPDATE` statement. -/
def migrateWhere (uid col : String) (d : Doc) : Prop :=
  d.user_id = LEGACY_DEFAULT_USER_ID ∧ d.collection_name = col ∧
  migrateSourceGuard uid (metaText d.metadata "source") = true

instance (uid col : String) (d : Doc) : Decidable (migrateWhere uid col d) := by
  unfold migrateWhere; infer_instance

/-- One row under the migration `UPDATE` (see `migrateSourceGuard` for the
`NOT (...)` clause). -/
def migrateUpdateRow (uid col : String) (d : Doc) : Doc :=
  if migrateWhere uid col d then { d with user_id := uid } else d

/-- Model of `_migrate_legacy_user_data`: returns the table after the call together
with the migrated count it reports (`None` when the migration was skipped).
The reported count is `legacy_count`, counted before the `UPDATE`. -/
def migrate_legacy_user_data (db : List Doc) (uid col : String) :
    List Doc × Option Nat :=
  if uid = LEGACY_DEFAULT_USER_ID then (db, none)
  else
    let current_count := countScoped db uid col
    if current_count ≠ 0 then (db, none)
    else
      let legacy_count := countScoped db LEGACY_DEFAULT_USER_ID col
      if legacy_count = 0 then (db, none)
      else (db.map (migrateUpdateRow uid col), some legacy_count)

/-- Model of `sync_application_to_vector_store`: constructing
`PgVectorStore(collection_name="applications", user_id=uid)` first runs the
legacy-tenant migration, then the sync deletes any document matching the
record's `(record_id, record_type)` and inserts the fresh one.  Schema
bootstrap is a no-op on the row level and is not modelled. -/
def sync_application_to_vector_store (db : List Doc) (uid : String)
    (app : Application) (emb : List ℚ) (newId ts : String) (now : Nat) :
    List Doc :=
  let db0 := (migrate_legacy_user_data db uid "applications").1
  let text := format_application_text app
  if text = "" then db0
  else
    let db1 := delete_by_metadata db0 uid "applications"
      [("record_id", app.id), ("record_type", "application")]
    add_texts_single db1 uid "applications" text
      (applicationSyncMetadata app text ts) emb newId ts now

/-! ## `_generate_embeddings_with_retry`: the per-batch retry loop -/

/-- Outcome of one call to the embedding provider for a batch. -/
inductive EmbResult where
  | ok : List (List ℚ) → EmbResult
  | err : String → EmbResult

/-- Substring containment over character lists (Python `in` on `str`). -/
def listContainsSub : List Char → List Char → Bool
  | [], pat => pat.isEmpty
  | c :: rest, pat => pat.isPrefixOf (c :: rest) || listContainsSub rest pat

/-- Python `str.lower()`. -/
def lowerChars (l : List Char) : List Char := l.map Char.toLower

/-- Model of `"429" in str(e).lower() or "resource exhausted" in ... or "quota" in ...`:
rate-limit detection on the error text. -/
def isRateLimitError (msg : String) : Bool :=
  listContainsSub (lowerChars msg.data) "429".data ||
  listContainsSub (lowerChars msg.data) "resource exhausted".data ||
  listContainsSub (lowerChars msg.data) "quota".data

/-- The `for attempt in range(max_retries)` loop body for one batch.
`attempt` is the index of the next provider call (which also indexes the
stub), and `fuel` is the number of attempts still allowed, so that
`fuel = max_retries - attempt`; the Python guard `attempt < max_retries - 1`
is `0 < fuel` after the current attempt is consumed.  Returns the batch
embeddings or the propagated error, together with the number of provider
calls made. -/
def runAttempts (stub : Nat → EmbResult) :
    Nat → Nat → Except String (List (List ℚ)) × Nat
  | _, 0 => (.error "loop exhausted", 0)
  | attempt, fuel + 1 =>
    match stub attempt with
    | .ok embs => (.ok embs, 1)
    | .err msg =>
      if isRateLimitError msg ∧ 0 < fuel then
        let r := runAttempts stub (attempt + 1) fuel
        (r.1, r.2 + 1)
      else (.error msg, 1)

/-- Model of `_generate_embeddings_with_retry` restricted to a single batch:
`max_retries = 7` attempts starting at attempt 0. -/
def generate_embeddings_with_retry_batch (stub : Nat → EmbResult) :
    Except String (List (List ℚ)) × Nat :=
  runAttempts stub 0 7

/-! ## `_reduce_dimensions` and `_reduce_query_embedding` -/

/-- The per-store reducer state: `self.max_dimensions` (2000 in
`__init__`), the loaded/fitted PCA model as its transform function, and
whether sklearn imported. -/
structure StoreState where
  max_dimensions : Nat
  pca_model : Option (List ℚ → List ℚ)
  has_sklearn : Bool

/-- Result of `_reduce_dimensions`: the output vectors, the model fitted
during this call (`self.pca_model` assignment), and whether it was handed to
the persistence layer (`pickle.dump`). -/
structure ReduceOutcome where
  vectors : List (List ℚ)
  newModel : Option (List ℚ → List ℚ)
  persisted : Bool

/-- Model of `_reduce_dimensions`.  `fit` is sklearn's PCA fit, taking the component
count and the training batch and returning the fitted transform; it is a
parameter because the fitting algorithm is external.  The row width
`original_dim` is the length of the first vector (`np.array(...).shape[1]`
on the rectangular batch). -/
def reduce_dimensions (fit : Nat → List (List ℚ) → (List ℚ → List ℚ))
    (st : StoreState) (embeddings : List (List ℚ)) (fit_pca : Bool) :
    ReduceOutcome :=
  if embeddings.isEmpty then ⟨embeddings, none, false⟩
  else
    let original_dim := (embeddings.headD []).length
    if original_dim ≤ st.max_dimensions then ⟨embeddings, none, false⟩
    else if !st.has_sklearn then
      ⟨embeddings.map fun e => e.take st.max_dimensions, none, false⟩
    else if fit_pca ∧ st.pca_model.isNone then
      let n_samples := embeddings.length
      if n_samples < st.max_dimensions then
        ⟨embeddings.map fun e => e.take st.max_dimensions, none, false⟩
      else
        let m := fit st.max_dimensions embeddings
        ⟨embeddings.map m, some m, true⟩
    else
      match st.pca_model with
      | some m => ⟨embeddings.map m, none, false⟩
      | none => ⟨embeddings.map fun e => e.take st.max_dimensions, none, false⟩

/-- Model of `_reduce_query_embedding`: the query vector goes through the same model;
with no model, both the sklearn and the non-sklearn branches truncate. -/
def reduce_query_embedding (st : StoreState) (emb : List ℚ) : List ℚ :=
  if emb.isEmpty then emb
  else if emb.length ≤ st.max_dimensions then emb
  else
    match st.pca_model with
    | some m => m emb
    | none => emb.take st.max_dimensions

/-! ## `get_by_record_id` and `list_records` -/

/-- The `WHERE` clause shared by `get_by_record_id` (with the extra
`record_id` test) and `list_records`. -/
def recordScope (uid col rtype : String) (d : Doc) : Prop :=
  d.user_id = uid ∧ d.collection_name = col ∧
  metaText d.metadata "record_type" = some rtype

instance (uid col rtype : String) (d : Doc) :
    Decidable (recordScope uid col rtype d) := by
  unfold recordScope; infer_instance

/-- The rows matching the `get_by_record_id` query, before `LIMIT 1`. -/
def get_by_record_id_rows (db : List Doc) (uid col rtype rid : String) :
    List Doc :=
  db.filter fun d =>
    recordScope uid col rtype d ∧ metaText d.metadata "record_id" = some rid

/-- Model of `get_by_record_id`.  The query result is an `Except`: a failing
statement is caught by the bare `except`, which returns `None`, so the
caller always sees a successful `Option`.  `LIMIT 1` without `ORDER BY`
picks an arbitrary matching row; the model takes the first. -/
def get_by_record_id (dbq : Except String (List Doc))
    (uid col rtype rid : String) : Except String (Option JVal) :=
  match dbq with
  | .error _ => .ok none
  | .ok db =>
    .ok ((get_by_record_id_rows db uid col rtype rid).head?.bind
          fun d => pyGet d.metadata "data")

/-- The three sort expressions `list_records` can emit in `ORDER BY`. -/
inductive SortExpr where
  | createdCol : SortExpr
  | updatedCol : SortExpr
  | dataField : String → SortExpr

/-- The `sort_field_map` dictionary lookup with its fallback
`metadata->'data'->>'{sort_by}'`. -/
def sort_field_map (s : String) : SortExpr :=
  if s = "applied_date" then .dataField "applied_date"
  else if s = "created_at" then .createdCol
  else if s = "updated_at" then .updatedCol
  else if s = "company" then .dataField "company"
  else if s = "status" then .dataField "status"
  else .dataField s

/-- Lexicographic comparison of character lists by code point (the `C`
collation of the text comparison in `ORDER BY`). -/
def charListLe : List Char → List Char → Bool
  | [], _ => true
  | _ :: _, [] => false
  | a :: as, b :: bs =>
    if a.val.toNat < b.val.toNat then true
    else if b.val.toNat < a.val.toNat then false
    else charListLe as bs

/-- Text comparison used by `ORDER BY` on `->>` sort keys. -/
def strLe (a b : String) : Bool := charListLe a.data b.data

/-- Model of `ORDER BY` comparison of two optional text keys.  PostgreSQL places
`NULL` first under `DESC` (`reverse = true`) and last under `ASC`. -/
def optStrLe (reverse : Bool) : Option String → Option String → Bool
  | none, none => true
  | none, some _ => reverse
  | some _, none => !reverse
  | some a, some b => if reverse then strLe b a else strLe a b

/-- Model of `ORDER BY` on a numeric column in the requested direction. -/
def natLe (reverse : Bool) (a b : Nat) : Bool :=
  if reverse then decide (b ≤ a) else decide (a ≤ b)

/-- Row comparison for one sort expression and direction. -/
def rowLe (e : SortExpr) (reverse : Bool) (a b : Doc) : Bool :=
  match e with
  | .createdCol => natLe reverse a.created_at b.created_at
  | .updatedCol => natLe reverse a.updated_at b.updated_at
  | .dataField k => optStrLe reverse (dataText a.metadata k) (dataText b.metadata k)

instance (e : SortExpr) (reverse : Bool) :
    DecidableRel (fun a b : Doc => rowLe e reverse a b = true) :=
  fun _ _ => instDecidableEqBool _ _

/-- One exact-match filter of `list_records`: a `None` value is skipped, a
present value compiles to `metadata->'data'->>key = str(value)`. -/
def listFilterCond (m : JVal) : String × Option String → Prop
  | (_, none) => True
  | (k, some v) => dataText m k = some v

instance (m : JVal) (kv : String × Option String) :
    Decidable (listFilterCond m kv) := by
  rcases kv with ⟨k, _ | v⟩ <;> simp only [listFilterCond] <;> infer_instance

/-- The sort expression `list_records` uses.  The guard is Python's
`if sort_by:`, so both `None` and the falsy empty string keep the default
`created_at DESC`; otherwise `sort_field_map` maps the field. -/
def listSortExpr (sort_by : Option String) : SortExpr :=
  match sort_by with
  | none => .createdCol
  | some s => if s = "" then .createdCol else sort_field_map s

/-- The direction flag actually used: the default `ORDER BY` (for `None` or
an empty `sort_by`) is `DESC` regardless of `reverse`; with a truthy
`sort_by`, `reverse` decides. -/
def listSortRev (sort_by : Option String) (reverse : Bool) : Bool :=
  match sort_by with
  | none => true
  | some s => if s = "" then true else reverse

/-- The rows the `list_records` SQL statement returns: scope filter plus
exact-match filters, `ORDER BY`, `LIMIT`. -/
def list_records_rows (db : List Doc) (uid col rtype : String)
    (filters : List (String × Option String)) (sort_by : Option String)
    (reverse : Bool) (limit : Nat) : List Doc :=
  ((db.filter fun d =>
      recordScope uid col rtype d ∧
      ∀ kv ∈ filters, listFilterCond d.metadata kv).insertionSort
    (fun a b => rowLe (listSortExpr sort_by) (listSortRev sort_by reverse) a b
      = true)).take limit

/-- Model of `list_records`.  A failing statement is caught and turned into `[]`; a
successful one yields the `data` payloads of the returned rows, skipping
rows whose payload is absent or falsy (`if record:`). -/
def list_records (dbq : Except String (List Doc)) (uid col rtype : String)
    (filters : List (String × Option String)) (sort_by : Option String)
    (reverse : Bool) (limit : Nat) : Except String (List JVal) :=
  match dbq with
  | .error _ => .ok []
  | .ok db =>
    .ok ((list_records_rows db uid col rtype filters sort_by reverse limit).filterMap
          fun d => (pyGet d.metadata "data").bind
            fun v => if v.truthy then some v else none)

/-! ## `similarity_search` and `similarity_search_with_score` -/

/-- Ascending comparison on the pgvector cosine distance `<=>` between the
reduced query vector and the row embedding (`ORDER BY embedding <=> q ASC`).
`cosDist` is the engine's distance operator, a parameter of the model. -/
def simRowLe (cosDist : List ℚ → List ℚ → ℚ) (q : List ℚ) (a b : Doc) :
    Bool :=
  decide (cosDist q a.embedding ≤ cosDist q b.embedding)

instance (cosDist : List ℚ → List ℚ → ℚ) (q : List ℚ) :
    DecidableRel (fun a b : Doc => simRowLe cosDist q a b = true) :=
  fun _ _ => instDecidableEqBool _ _

/-- The rows a similarity query returns: tenant/collection scope, ordered by
ascending cosine distance, truncated by `LIMIT k`. -/
def similarity_rows (cosDist : List ℚ → List ℚ → ℚ) (db : List Doc)
    (uid col : String) (q : List ℚ) (k : Nat) : List Doc :=
  ((scopeFilter db uid col).insertionSort
    (fun a b => simRowLe cosDist q a b = true)).take k

/-- The rows paired with their reported similarity
`1 - (embedding <=> q)`. -/
def similarity_rows_scored (cosDist : List ℚ → List ℚ → ℚ) (db : List Doc)
    (uid col : String) (q : List ℚ) (k : Nat) : List (Doc × ℚ) :=
  (similarity_rows cosDist db uid col q k).map fun d =>
    (d, 1 - cosDist q d.embedding)

/-- Model of `metadata.pop("text", None); metadata.pop("timestamp", None)` on the
decoded row metadata. -/
def stripInternalMeta : JVal → JVal
  | .jobj fs => .jobj (dictRemove (dictRemove fs "text") "timestamp")
  | v => v

/-- Model of `similarity_search_with_score`.  `embedq` is the outcome of
`embed_query`; it runs before the `try` block, so its failure propagates.
The reduced query vector is compared by the engine; a failing statement is
caught and turned into `[]`.  Each result is
`(Document(page_content, metadata), score)`, modelled as the text/metadata
pair with the score. -/
def similarity_search_with_score (cosDist : List ℚ → List ℚ → ℚ)
    (st : StoreState) (embedq : Except String (List ℚ))
    (dbq : Except String (List Doc)) (uid col : String) (k : Nat) :
    Except String (List ((String × JVal) × ℚ)) :=
  match embedq with
  | .error e => .error e
  | .ok raw =>
    let q := reduce_query_embedding st raw
    match dbq with
    | .error _ => .ok []
    | .ok db =>
      .ok ((similarity_rows_scored cosDist db uid col q k).map fun p =>
            ((p.1.text, stripInternalMeta p.1.metadata), p.2))

/-- Model of `similarity_search`: same query; the score is folded into the returned
metadata under the key `"similarity"` instead of being returned beside the
document. -/
def similarity_search (cosDist : List ℚ → List ℚ → ℚ) (st : StoreState)
    (embedq : Except String (List ℚ)) (dbq : Except String (List Doc))
    (uid col : String) (k : Nat) : Except String (List (String × JVal)) :=
  match embedq with
  | .error e => .error e
  | .ok raw =>
    let q := reduce_query_embedding st raw
    match dbq with
    | .error _ => .ok []
    | .ok db =>
      .ok ((similarity_rows_scored cosDist db uid col q k).map fun p =>
            (p.1.text,
             match stripInternalMeta p.1.metadata with
             | .jobj fs => .jobj (dictSet fs "similarity" (.jnum p.2))
             | v => v))

/-! ## C3: the per-batch retry policy -/

/-- If the stub rate-limits `N` times starting at `attempt` and then
succeeds, and `N` is below the remaining fuel, the loop returns the batch
with `N + 1` calls. -/
theorem runAttempts_ok (stub : Nat → EmbResult) (embs : List (List ℚ)) :
    ∀ (N attempt fuel : Nat), N < fuel →
      (∀ i, i < N → ∃ msg, stub (attempt + i) = .err msg ∧
        isRateLimitError msg = true) →
      stub (attempt + N) = .ok embs →
      runAttempts stub attempt fuel = (.ok embs, N + 1) := by
  intro N
  induction N with
  | zero =>
    intro attempt fuel hfuel _ hok
    match fuel, hfuel with
    | f + 1, _ =>
      simp only [runAttempts]
      rw [Nat.add_zero] at hok
      rw [hok]
  | succ n ih =>
    intro attempt fuel hfuel hrl hok
    match fuel, hfuel with
    | f + 1, hfuel =>
      obtain ⟨msg, herr, hrate⟩ := hrl 0 (Nat.succ_pos n)
      rw [Nat.add_zero] at herr
      simp only [runAttempts, herr]
      have hf : n < f := by omega
      have hrec := ih (attempt + 1) f hf
        (fun i hi => by
          have := hrl (i + 1) (by omega)
          rwa [show attempt + (i + 1) = attempt + 1 + i by omega] at this)
        (by rwa [show attempt + 1 + n = attempt + (n + 1) by omega])
      rw [if_pos ⟨hrate, by omega⟩, hrec]

/-- If every call rate-limits, the loop consumes all its fuel and fails. -/
theorem runAttempts_exhaust (stub : Nat → EmbResult)
    (hall : ∀ i, ∃ msg, stub i = .err msg ∧ isRateLimitError msg = true) :
    ∀ (fuel attempt : Nat), 0 < fuel →
      ∃ msg, runAttempts stub attempt fuel = (.error msg, fuel) := by
  intro fuel
  induction fuel with
  | zero => intro _ h; omega
  | succ f ih =>
    intro attempt _
    obtain ⟨msg, herr, hrate⟩ := hall attempt
    match f with
    | 0 =>
      refine ⟨msg, ?_⟩
      simp only [runAttempts, herr]
      rw [if_neg (by simp)]
    | g + 1 =>
      obtain ⟨msg2, hrec⟩ := ih (attempt + 1) (Nat.succ_pos g)
      refine ⟨msg2, ?_⟩
      have h1 : runAttempts stub attempt (g + 1 + 1)
          = ((runAttempts stub (attempt + 1) (g + 1)).1,
             (runAttempts stub (attempt + 1) (g + 1)).2 + 1) := by
        conv_lhs => rw [runAttempts]
        rw [herr]
        dsimp only
        rw [if_pos ⟨hrate, Nat.succ_pos g⟩]
      rw [h1, hrec]

/-- If the stub rate-limits `N` times starting at `attempt` and then fails
with a non-rate-limit error, the loop stops at that failing call — `N + 1`
calls in total — whatever fuel remains. -/
theorem runAttempts_err (stub : Nat → EmbResult) (m : String) :
    ∀ (N attempt fuel : Nat), N < fuel →
      (∀ i, i < N → ∃ msg, stub (attempt + i) = .err msg ∧
        isRateLimitError msg = true) →
      stub (attempt + N) = .err m → isRateLimitError m = false →
      runAttempts stub attempt fuel = (.error m, N + 1) := by
  intro N
  induction N with
  | zero =>
    intro attempt fuel hfuel _ herr hrate
    match fuel, hfuel with
    | f + 1, _ =>
      rw [Nat.add_zero] at herr
      simp only [runAttempts, herr]
      rw [if_neg (by simp [hrate])]
  | succ n ih =>
    intro attempt fuel hfuel hrl herr hrate
    match fuel, hfuel with
    | f + 1, hfuel =>
      obtain ⟨msg, herr0, hrate0⟩ := hrl 0 (Nat.succ_pos n)
      rw [Nat.add_zero] at herr0
      simp only [runAttempts, herr0]
      have hf : n < f := by omega
      have hrec := ih (attempt + 1) f hf
        (fun i hi => by
          have := hrl (i + 1) (by omega)
          rwa [show attempt + (i + 1) = attempt + 1 + i by omega] at this)
        (by rwa [show attempt + 1 + n = attempt + (n + 1) by omega])
        hrate
      rw [if_pos ⟨hrate0, by omega⟩, hrec]

/-- C3.  Per batch: a provider that rate-limits exactly `N < 7` times and
then succeeds leads to success with exactly `N + 1` provider calls; a
provider that always rate-limits leads to failure after exactly 7 calls;
and a non-rate-limit error — whether on the first call or after any number
of earlier rate-limited attempts — is propagated immediately, with no
retry after it. -/
theorem rate_limit_retry (stub : Nat → EmbResult) (N : Nat)
    (embs : List (List ℚ)) (m : String) :
    (N < 7 →
      (∀ i, i < N → ∃ msg, stub i = .err msg ∧ isRateLimitError msg = true) →
      stub N = .ok embs →
      generate_embeddings_with_retry_batch stub = (.ok embs, N + 1)) ∧
    ((∀ i, ∃ msg, stub i = .err msg ∧ isRateLimitError msg = true) →
      ∃ msg, generate_embeddings_with_retry_batch stub = (.error msg, 7)) ∧
    (N < 7 →
      (∀ i, i < N → ∃ msg, stub i = .err msg ∧ isRateLimitError msg = true) →
      stub N = .err m → isRateLimitError m = false →
      generate_embeddings_with_retry_batch stub = (.error m, N + 1)) := by
  refine ⟨fun hN hrl hok => ?_, fun hall => ?_,
    fun hN hrl herrN hrate => ?_⟩
  · exact runAttempts_ok stub embs N 0 7 hN
      (fun i hi => by simpa using hrl i hi) (by simpa using hok)
  · exact runAttempts_exhaust stub hall 7 0 (by omega)
  · exact runAttempts_err stub m N 0 7 hN
      (fun i hi => by simpa using hrl i hi) (by simpa using herrN) hrate

/-- A stub that rate-limits twice, then succeeds. -/
def stubRateLimitTwice : Nat → EmbResult := fun n =>
  if n < 2 then .err "Error 429: quota exceeded" else .ok [[1]]

/-- A stub that always rate-limits. -/
def stubAlwaysRateLimit : Nat → EmbResult := fun _ =>
  .err "429 RESOURCE EXHAUSTED"

/-- A stub that fails with a non-rate-limit error. -/
def stubAuthError : Nat → EmbResult := fun _ => .err "invalid api key"

/-- A stub that rate-limits twice, then fails with a non-rate-limit
error. -/
def stubRateLimitThenAuth : Nat → EmbResult := fun n =>
  if n < 2 then .err "Error 429: quota exceeded" else .err "invalid api key"

/-- Witness for C3: the three branches at concrete stubs, the error branch
both on the first call and after two rate-limited calls. -/
theorem rate_limit_retry_witness :
    generate_embeddings_with_retry_batch stubRateLimitTwice = (.ok [[1]], 3) ∧
    (∃ msg, generate_embeddings_with_retry_batch stubAlwaysRateLimit
      = (.error msg, 7)) ∧
    generate_embeddings_with_retry_batch stubAuthError
      = (.error "invalid api key", 1) ∧
    generate_embeddings_with_retry_batch stubRateLimitThenAuth
      = (.error "invalid api key", 3) := by
  refine ⟨?_, ?_, ?_, ?_⟩
  · exact (rate_limit_retry stubRateLimitTwice 2 [[1]] "x").1 (by omega)
      (fun i hi => ⟨"Error 429: quota exceeded",
        by simp only [stubRateLimitTwice, if_pos hi], by decide⟩)
      rfl
  · exact (rate_limit_retry stubAlwaysRateLimit 0 [] "x").2.1
      (fun i => ⟨"429 RESOURCE EXHAUSTED", rfl, by decide⟩)
  · exact (rate_limit_retry stubAuthError 0 [] "invalid api key").2.2
      (by omega) (fun i hi => absurd hi (Nat.not_lt_zero i)) rfl (by decide)
  · exact (rate_limit_retry stubRateLimitThenAuth 2 [] "invalid api key").2.2
      (by omega)
      (fun i hi => ⟨"Error 429: quota exceeded",
        by simp only [stubRateLimitThenAuth, if_pos hi], by decide⟩)
      rfl (by decide)

/-! ## C8: the reducer's fit condition -/

/-- C8.  When reduction is needed (row width above `max_dimensions`), no
model exists, sklearn is available and fitting is requested: the model is
fit on exactly this batch, persisted and applied if and only if the batch
has at least `max_dimensions` vectors; otherwise every vector is truncated
to `max_dimensions` components and nothing is persisted.  (`__init__` sets
`max_dimensions = 2000`.) -/
theorem reduce_fit_condition (fit : Nat → List (List ℚ) → (List ℚ → List ℚ))
    (st : StoreState) (embeddings : List (List ℚ))
    (hne : embeddings ≠ [])
    (hdim : st.max_dimensions < (embeddings.headD []).length)
    (hsk : st.has_sklearn = true) (hmodel : st.pca_model = none) :
    (st.max_dimensions ≤ embeddings.length →
      reduce_dimensions fit st embeddings true =
        ⟨embeddings.map (fit st.max_dimensions embeddings),
         some (fit st.max_dimensions embeddings), true⟩) ∧
    (embeddings.length < st.max_dimensions →
      reduce_dimensions fit st embeddings true =
        ⟨embeddings.map fun e => e.take st.max_dimensions, none, false⟩) := by
  have hdim2 : ¬(embeddings.head?.getD []).length ≤ st.max_dimensions := by
    rw [← List.headD_eq_head?]
    exact Nat.not_le.mpr hdim
  constructor <;> intro h <;>
    simp [reduce_dimensions, hne, hsk, hmodel, hdim2, Nat.not_lt.mpr h, h]

/-- A concrete stand-in for sklearn's fitted transform, used only by the
witness below. -/
def fitTruncW (n : Nat) (_ : List (List ℚ)) : List ℚ → List ℚ :=
  fun e => e.take n

/-- Witness for C8: a ceiling of 2, one 3-wide batch row (truncation branch)
and two rows (fit branch). -/
theorem reduce_fit_condition_witness :
    reduce_dimensions fitTruncW ⟨2, none, true⟩ [[1, 2, 3], [4, 5, 6]] true
      = ⟨[[1, 2], [4, 5]], some (fitTruncW 2 [[1, 2, 3], [4, 5, 6]]), true⟩ ∧
    reduce_dimensions fitTruncW ⟨2, none, true⟩ [[1, 2, 3]] true
      = ⟨[[1, 2]], none, false⟩ := by
  constructor
  · rw [(reduce_fit_condition fitTruncW ⟨2, none, true⟩ [[1, 2, 3], [4, 5, 6]]
      (by decide) (by decide) rfl rfl).1 (by decide)]
    rfl
  · rw [(reduce_fit_condition fitTruncW ⟨2, none, true⟩ [[1, 2, 3]]
      (by decide) (by decide) rfl rfl).2 (by decide)]
    rfl

/-! ## C9 and C10: the legacy-tenant migration -/

/-- C9.  The migration changes no rows whenever the target tenant already
has a document in the collection, and running it twice gives the same table
as running it once. -/
theorem migrate_skip_idempotent (db : List Doc) (uid col : String) :
    (0 < countScoped db uid col →
      migrate_legacy_user_data db uid col = (db, none)) ∧
    (migrate_legacy_user_data (migrate_legacy_user_data db uid col).1 uid col).1
      = (migrate_legacy_user_data db uid col).1 := by
  constructor
  · intro hpos
    unfold migrate_legacy_user_data
    by_cases huid : uid = LEGACY_DEFAULT_USER_ID
    · simp [huid]
    · simp [huid, Nat.pos_iff_ne_zero.mp hpos]
  · by_cases huid : uid = LEGACY_DEFAULT_USER_ID
    · simp [migrate_legacy_user_data, huid]
    · by_cases hcur : countScoped db uid col = 0
      · by_cases hleg : countScoped db LEGACY_DEFAULT_USER_ID col = 0
        · simp [migrate_legacy_user_data, huid, hcur, hleg]
        · have hrun : migrate_legacy_user_data db uid col
              = (db.map (migrateUpdateRow uid col),
                 some (countScoped db LEGACY_DEFAULT_USER_ID col)) := by
            simp [migrate_legacy_user_data, huid, hcur, hleg]
          rw [hrun]
          by_cases hex : ∃ d ∈ db, migrateWhere uid col d
          · obtain ⟨d, hmem, hcond⟩ := hex
            have hupd : migrateUpdateRow uid col d = { d with user_id := uid } := by
              simp [migrateUpdateRow, hcond]
            have hmem2 : ({ d with user_id := uid } : Doc)
                ∈ db.map (migrateUpdateRow uid col) :=
              hupd ▸ List.mem_map_of_mem _ hmem
            have hcount : countScoped (db.map (migrateUpdateRow uid col)) uid col ≠ 0 := by
              unfold countScoped scopeFilter
              have : ({ d with user_id := uid } : Doc)
                  ∈ (db.map (migrateUpdateRow uid col)).filter
                    (fun x => decide (x.user_id = uid ∧ x.collection_name = col)) :=
                List.mem_filter.mpr ⟨hmem2, by simp [hcond.2.1]⟩
              exact Nat.pos_iff_ne_zero.mp (List.length_pos.mpr
                (List.ne_nil_of_mem this))
            simp [migrate_legacy_user_data, huid, hcount]
          · push_neg at hex
            have hfix : db.map (migrateUpdateRow uid col) = db := by
              conv_rhs => rw [← List.map_id db]
              exact List.map_congr_left fun d hd => by
                simp [migrateUpdateRow, hex d hd]
            rw [hfix, hrun]
            exact hfix
      · have hskip : migrate_legacy_user_data db uid col = (db, none) := by
          simp [migrate_legacy_user_data, huid, hcur]
        rw [hskip]
        rw [hskip]

/-- A document already owned by the target tenant. -/
def docOwned : Doc :=
  { docId := "o1", user_id := "alice", collection_name := "jobs", text := "t",
    embedding := [1], metadata := .jobj [], created_at := 0, updated_at := 0 }

/-- Witness for C9: with one document already under the target tenant, the
migration leaves the table unchanged and reports nothing. -/
theorem migrate_skip_idempotent_witness :
    0 < countScoped [docOwned] "alice" "jobs" ∧
    migrate_legacy_user_data [docOwned] "alice" "jobs" = ([docOwned], none) :=
  ⟨by decide, (migrate_skip_idempotent [docOwned] "alice" "jobs").1 (by decide)⟩

/-- An identifier starting with the literal `google_` matches the SQL
pattern `google_%`. -/
theorem likeGoogle_of_google_underscore (uid : String)
    (h : "google_".data.isPrefixOf uid.data = true) :
    likeGoogleUnderscore uid = true := by
  rw [List.isPrefixOf_iff_prefix] at h
  unfold likeGoogleUnderscore
  rw [Bool.and_eq_true, List.isPrefixOf_iff_prefix, decide_eq_true_eq]
  have h7 : ("google_".data).length = 7 := by decide
  refine ⟨List.IsPrefix.trans (by decide) h, ?_⟩
  have := h.length_le
  omega

/-- C10.  Even when the migration runs, a fallback-tenant document whose
metadata source is `linkedin-job-page` is not reassigned to a target tenant
matching `google_%` (it keeps its row, unchanged), while the count the
migration reports is the full legacy count, which includes that row. -/
theorem linkedin_rows_stay_legacy (db : List Doc) (uid col : String) (d : Doc)
    (hstart : "google_".data.isPrefixOf uid.data = true)
    (hmem : d ∈ db)
    (hud : d.user_id = LEGACY_DEFAULT_USER_ID)
    (hcol : d.collection_name = col)
    (hsrc : metaText d.metadata "source" = some "linkedin-job-page")
    (huid : uid ≠ LEGACY_DEFAULT_USER_ID)
    (hcur : countScoped db uid col = 0) :
    d ∈ (migrate_legacy_user_data db uid col).1 ∧
    (migrate_legacy_user_data db uid col).2
      = some (countScoped db LEGACY_DEFAULT_USER_ID col) ∧
    0 < countScoped db LEGACY_DEFAULT_USER_ID col := by
  have hlike := likeGoogle_of_google_underscore uid hstart
  have hguard : migrateSourceGuard uid (metaText d.metadata "source") = false := by
    rw [hsrc]
    simp [migrateSourceGuard, hlike]
  have hnw : ¬migrateWhere uid col d := by
    rintro ⟨-, -, hg⟩
    rw [hguard] at hg
    exact Bool.false_ne_true hg
  have hfixd : migrateUpdateRow uid col d = d := if_neg hnw
  have hleg : 0 < countScoped db LEGACY_DEFAULT_USER_ID col := by
    unfold countScoped scopeFilter
    exact List.length_pos.mpr (List.ne_nil_of_mem
      (List.mem_filter.mpr ⟨hmem, by simp [hud, hcol]⟩))
  have hrun : migrate_legacy_user_data db uid col
      = (db.map (migrateUpdateRow uid col),
         some (countScoped db LEGACY_DEFAULT_USER_ID col)) := by
    simp [migrate_legacy_user_data, huid, hcur, Nat.pos_iff_ne_zero.mp hleg]
  refine ⟨?_, by rw [hrun], hleg⟩
  rw [hrun]
  exact List.mem_map.mpr ⟨d, hmem, hfixd⟩

/-- A legacy LinkedIn-sourced document under the fallback tenant. -/
def docLinkedIn : Doc :=
  { docId := "l1", user_id := "default_user", collection_name := "jobs",
    text := "t", embedding := [1],
    metadata := .jobj [("source", .jstr "linkedin-job-page")],
    created_at := 0, updated_at := 0 }

/-- Witness for C10 at a concrete table and a concrete `google_` tenant. -/
theorem linkedin_rows_stay_legacy_witness :
    docLinkedIn ∈ (migrate_legacy_user_data [docLinkedIn] "google_user1" "jobs").1 ∧
    (migrate_legacy_user_data [docLinkedIn] "google_user1" "jobs").2 = some 1 := by
  have h := linkedin_rows_stay_legacy [docLinkedIn] "google_user1" "jobs"
    docLinkedIn (by decide) (List.mem_singleton_self _) rfl rfl rfl
    (by decide) (by decide)
  refine ⟨h.1, ?_⟩
  rw [h.2.1]
  rfl

/-! ## C4 and C5: failure behaviour of the read paths -/

/-- Counterexample to C4: a failing statement does not propagate out of
`get_by_record_id` or `list_records`; both catch it and return the
degraded not-found/empty results. -/
theorem read_failure_counterexample :
    get_by_record_id (.error "connection refused") "tenantA" "applications"
      "application" "app_1" = .ok none ∧
    list_records (.error "connection refused") "tenantA" "applications"
      "application" [] none true 100 = .ok [] :=
  ⟨rfl, rfl⟩

/-- C4 as amended: on any failing query, `get_by_record_id` returns a
successful `None` and `list_records` a successful empty list; neither
raises. -/
theorem read_failures_swallowed (e uid col rtype rid : String)
    (filters : List (String × Option String)) (sort_by : Option String)
    (reverse : Bool) (limit : Nat) :
    get_by_record_id (.error e) uid col rtype rid = .ok none ∧
    list_records (.error e) uid col rtype filters sort_by reverse limit
      = .ok [] :=
  ⟨rfl, rfl⟩

/-- A trivial stand-in for the engine's cosine-distance operator, used by
concrete counterexamples and witnesses. -/
def cosDistZero : List ℚ → List ℚ → ℚ := fun _ _ => 0

/-- A store state as `__init__` leaves it before any model is loaded. -/
def stInit : StoreState :=
  { max_dimensions := 2000, pca_model := none, has_sklearn := true }

/-- Counterexample to C5: when the query-embedding step fails, both
similarity functions propagate the error instead of returning an empty
result (only the database part runs inside the `try`). -/
theorem similarity_embed_failure_counterexample :
    similarity_search cosDistZero stInit (.error "embedding quota exhausted")
      (.ok []) "tenantA" "jobs" 4 = .error "embedding quota exhausted" ∧
    similarity_search_with_score cosDistZero stInit
      (.error "embedding quota exhausted") (.ok []) "tenantA" "jobs" 4
      = .error "embedding quota exhausted" :=
  ⟨rfl, rfl⟩

/-- C5 as amended: a failing similarity statement is caught and yields an
empty result, but a failing query embedding propagates to the caller. -/
theorem similarity_failure_modes (cosDist : List ℚ → List ℚ → ℚ)
    (st : StoreState) (e : String) (qv : List ℚ)
    (dbq : Except String (List Doc)) (uid col : String) (k : Nat) :
    similarity_search cosDist st (.ok qv) (.error e) uid col k = .ok [] ∧
    similarity_search_with_score cosDist st (.ok qv) (.error e) uid col k
      = .ok [] ∧
    similarity_search cosDist st (.error e) dbq uid col k = .error e ∧
    similarity_search_with_score cosDist st (.error e) dbq uid col k
      = .error e :=
  ⟨rfl, rfl, rfl, rfl⟩

/-! ## C2: tenant isolation of the three read operations -/

/-- C2.  Every row drawn by `list_records`, `get_by_record_id` or a
similarity query scoped to tenant `A` carries `user_id = A`; in particular,
for any other tenant `B`, no row written under `B` is ever returned. -/
theorem tenant_isolation (cosDist : List ℚ → List ℚ → ℚ) (db : List Doc)
    (A B col rtype rid : String) (filters : List (String × Option String))
    (sort_by : Option String) (reverse : Bool) (limit : Nat) (q : List ℚ)
    (k : Nat) (hAB : A ≠ B) :
    (∀ d ∈ list_records_rows db A col rtype filters sort_by reverse limit,
      d.user_id = A ∧ d.user_id ≠ B) ∧
    (∀ d ∈ get_by_record_id_rows db A col rtype rid,
      d.user_id = A ∧ d.user_id ≠ B) ∧
    (∀ d ∈ similarity_rows cosDist db A col q k,
      d.user_id = A ∧ d.user_id ≠ B) := by
  have step : ∀ d : Doc, d.user_id = A → d.user_id = A ∧ d.user_id ≠ B :=
    fun d h => ⟨h, h ▸ hAB⟩
  refine ⟨fun d hd => step d ?_, fun d hd => step d ?_, fun d hd => step d ?_⟩
  · have h1 := List.mem_of_mem_take hd
    have h2 := (List.mem_insertionSort _ (l :=
      db.filter fun d => decide (recordScope A col rtype d ∧
        ∀ kv ∈ filters, listFilterCond d.metadata kv))).mp h1
    have h3 := List.of_mem_filter h2
    simp only [decide_eq_true_eq] at h3
    exact h3.1.1
  · have h3 := List.of_mem_filter hd
    simp only [decide_eq_true_eq] at h3
    exact h3.1.1
  · have h1 := List.mem_of_mem_take hd
    have h2 := (List.mem_insertionSort _ (l := scopeFilter db A col)).mp h1
    have h3 := List.of_mem_filter h2
    simp only [decide_eq_true_eq] at h3
    exact h3.1

/-- A document written under tenant `alice`. -/
def docAlice : Doc :=
  { docId := "a1", user_id := "alice", collection_name := "jobs",
    text := "alice text", embedding := [1],
    metadata := .jobj [("record_type", .jstr "application"),
                       ("record_id", .jstr "r1"),
                       ("data", .jobj [("company", .jstr "Acme")])],
    created_at := 0, updated_at := 0 }

/-- A document written under tenant `bob` in the same collection. -/
def docBob : Doc :=
  { docId := "b1", user_id := "bob", collection_name := "jobs",
    text := "bob text", embedding := [2],
    metadata := .jobj [("record_type", .jstr "application"),
                       ("record_id", .jstr "r1"),
                       ("data", .jobj [("company", .jstr "SliceCo")])],
    created_at := 1, updated_at := 1 }

/-- Witness for C2: the get-by-id row for `alice` on a mixed two-tenant
table is alice's. -/
theorem tenant_isolation_witness :
    docAlice.user_id = "alice" ∧ docAlice.user_id ≠ "bob" :=
  (tenant_isolation cosDistZero [docAlice, docBob] "alice" "bob" "jobs"
    "application" "r1" [] none true 100 [1] 4 (by decide)).2.1
    docAlice (List.mem_filter.mpr ⟨List.mem_cons_self _ _, by decide⟩)

/-! ## C7: similarity results are a sorted top-k -/

/-- C7.  A successful similarity query returns at most `k` results, in
descending score order, and every underlying row is scored exactly
`1 - cosDist(query, embedding)` against the reduced query vector. -/
theorem similarity_topk_sorted (cosDist : List ℚ → List ℚ → ℚ)
    (st : StoreState) (raw : List ℚ) (db : List Doc) (uid col : String)
    (k : Nat) (l : List ((String × JVal) × ℚ))
    (hres : similarity_search_with_score cosDist st (.ok raw) (.ok db) uid
      col k = .ok l) :
    l.length ≤ k ∧
    l.Pairwise (fun x y => y.2 ≤ x.2) ∧
    (∀ p ∈ similarity_rows_scored cosDist db uid col
        (reduce_query_embedding st raw) k,
      p.2 = 1 - cosDist (reduce_query_embedding st raw) p.1.embedding) ∧
    l = (similarity_rows_scored cosDist db uid col
          (reduce_query_embedding st raw) k).map
        (fun p => ((p.1.text, stripInternalMeta p.1.metadata), p.2)) := by
  simp only [similarity_search_with_score, Except.ok.injEq] at hres
  set q := reduce_query_embedding st raw with hq
  have hsorted : (similarity_rows cosDist db uid col q k).Pairwise
      (fun a b => simRowLe cosDist q a b = true) := by
    haveI : IsTotal Doc (fun a b => simRowLe cosDist q a b = true) := ⟨by
      intro a b
      simp only [simRowLe, decide_eq_true_eq]
      exact le_total _ _⟩
    haveI : IsTrans Doc (fun a b => simRowLe cosDist q a b = true) := ⟨by
      intro a b c hab hbc
      simp only [simRowLe, decide_eq_true_eq] at *
      exact le_trans hab hbc⟩
    exact (List.sorted_insertionSort _ _).sublist (List.take_sublist _ _)
  have hscored : (similarity_rows_scored cosDist db uid col q k).Pairwise
      (fun x y => y.2 ≤ x.2) := by
    refine List.Pairwise.map _ (fun a b hab => ?_) hsorted
    simp only [simRowLe, decide_eq_true_eq] at hab
    exact sub_le_sub_left hab 1
  refine ⟨?_, ?_, fun p hp => ?_, hres.symm⟩
  · rw [← hres, List.length_map, similarity_rows_scored, List.length_map]
    exact (List.length_take_le _ _)
  · rw [← hres]
    exact List.Pairwise.map _ (fun a b hab => hab) hscored
  · obtain ⟨d, -, rfl⟩ := List.mem_map.mp hp
    rfl

/-- Witness for C7 on a concrete two-tenant table with `k = 2`. -/
theorem similarity_topk_sorted_witness :
    ((similarity_rows_scored cosDistZero [docAlice, docBob] "alice" "jobs"
        (reduce_query_embedding stInit [1]) 2).map
      (fun p => ((p.1.text, stripInternalMeta p.1.metadata), p.2))).length
      ≤ 2 :=
  (similarity_topk_sorted cosDistZero stInit [1] [docAlice, docBob] "alice"
    "jobs" 2 _ rfl).1

/-! ## C6: sorting by an unsupported field -/

/-- First sort-test document: inserted first, data field `zzz = "b"`. -/
def docZ0 : Doc :=
  { docId := "z0", user_id := "u", collection_name := "c", text := "t0",
    embedding := [1],
    metadata := .jobj [("record_type", .jstr "application"),
                       ("data", .jobj [("zzz", .jstr "b"),
                                       ("company", .jstr "A0")])],
    created_at := 0, updated_at := 0 }

/-- Second sort-test document: inserted later, data field `zzz = "a"`. -/
def docZ1 : Doc :=
  { docId := "z1", user_id := "u", collection_name := "c", text := "t1",
    embedding := [1],
    metadata := .jobj [("record_type", .jstr "application"),
                       ("data", .jobj [("zzz", .jstr "a"),
                                       ("company", .jstr "A1")])],
    created_at := 1, updated_at := 1 }

/-- The sort-test table. -/
def exDbSort : List Doc := [docZ0, docZ1]

/-- Counterexample to C6: sorting by the unsupported field `zzz` does not
fall back to insertion-time descending order; the two orders disagree on
this table. -/
theorem list_sort_fallback_counterexample :
    list_records (.ok exDbSort) "u" "c" "application" [] (some "zzz") true 100
      ≠ list_records (.ok exDbSort) "u" "c" "application" [] none true 100 := by
  intro h
  rw [show list_records (.ok exDbSort) "u" "c" "application" [] (some "zzz")
        true 100
      = .ok [.jobj [("zzz", .jstr "b"), ("company", .jstr "A0")],
             .jobj [("zzz", .jstr "a"), ("company", .jstr "A1")]] from rfl,
      show list_records (.ok exDbSort) "u" "c" "application" [] none true 100
      = .ok [.jobj [("zzz", .jstr "a"), ("company", .jstr "A1")],
             .jobj [("zzz", .jstr "b"), ("company", .jstr "A0")]] from rfl]
    at h
  simp at h

/-- C6 as amended: for a truthy (non-empty) `sort_by` outside the named
sort fields, `sort_field_map` falls back to the expression
`metadata->'data'->>sort_by`, so `list_records` orders by that data field
in the requested direction (with SQL `NULL` ordering), not by insertion
time; the call still does not error.  A falsy `sort_by` (`None` or the
empty string) keeps the default `created_at DESC`. -/
theorem list_sort_fallback (dbq : Except String (List Doc)) (db : List Doc)
    (uid col rtype : String) (filters : List (String × Option String))
    (s : String) (reverse : Bool) (limit : Nat) (h0 : s ≠ "")
    (h1 : s ≠ "applied_date") (h2 : s ≠ "created_at")
    (h3 : s ≠ "updated_at") (h4 : s ≠ "company") (h5 : s ≠ "status") :
    sort_field_map s = .dataField s ∧
    list_records_rows db uid col rtype filters (some s) reverse limit
      = ((db.filter fun d => recordScope uid col rtype d ∧
            ∀ kv ∈ filters, listFilterCond d.metadata kv).insertionSort
          (fun a b => rowLe (.dataField s) reverse a b = true)).take limit ∧
    ∀ e, list_records dbq uid col rtype filters (some s) reverse limit
      ≠ .error e := by
  have hmap : sort_field_map s = .dataField s := by
    simp [sort_field_map, h1, h2, h3, h4, h5]
  refine ⟨hmap, ?_, ?_⟩
  · simp only [list_records_rows, listSortExpr, listSortRev, if_neg h0, hmap]
  · intro e
    match dbq with
    | .error e' => simp [list_records]
    | .ok db' => simp [list_records]

/-- Witness for C6's amended statement at the concrete field `zzz`. -/
theorem list_sort_fallback_witness :
    sort_field_map "zzz" = .dataField "zzz" :=
  (list_sort_fallback (.ok exDbSort) exDbSort "u" "c" "application" [] "zzz"
    true 100 (by decide) (by decide) (by decide) (by decide) (by decide)
    (by decide)).1

/-! ## C1: upsert leaves exactly one document per logical record -/

/-- A document belonging to the logical record
`(tenant, collection, record_type, record_id)`. -/
def matchesLogicalRecord (uid col rtype rid : String) (d : Doc) : Prop :=
  d.user_id = uid ∧ d.collection_name = col ∧
  metaText d.metadata "record_type" = some rtype ∧
  metaText d.metadata "record_id" = some rid

instance (uid col rtype rid : String) (d : Doc) :
    Decidable (matchesLogicalRecord uid col rtype rid d) := by
  unfold matchesLogicalRecord; infer_instance

/-- Joining lines with a nonempty head line gives a nonempty string. -/
theorem joinLines_cons_ne_empty (a : String) (L : List String)
    (ha : a.length ≠ 0) : joinLines (a :: L) ≠ "" := by
  match L with
  | [] =>
    intro h
    apply ha
    rw [show joinLines [a] = a from rfl] at h
    rw [h]
    rfl
  | b :: rest =>
    intro h
    apply ha
    have hlen := congrArg String.length h
    rw [show joinLines (a :: b :: rest) = a ++ "\n" ++ joinLines (b :: rest)
      from rfl, String.length_append, String.length_append] at hlen
    have : String.length "" = 0 := rfl
    omega

/-- The formatted application text always starts with the mandatory
`Job Application:` line, so the `if not text` guard never fires. -/
theorem format_application_text_ne_empty (app : Application) :
    format_application_text app ≠ "" := by
  unfold format_application_text
  rw [List.cons_append]
  apply joinLines_cons_ne_empty
  have h17 : ("Job Application: ").length = 17 := rfl
  rw [String.length_append, String.length_append, String.length_append]
  omega

/-- After the delete phase of the upsert, no document of the logical record
remains: the `DELETE` condition subsumes the record-matching condition. -/
theorem filter_delete_by_metadata (L : List Doc) (uid col rtype rid : String) :
    (delete_by_metadata L uid col
        [("record_id", rid), ("record_type", rtype)]).filter
      (fun d => matchesLogicalRecord uid col rtype rid d) = [] := by
  unfold delete_by_metadata
  rw [List.filter_filter]
  apply List.filter_eq_nil_iff.mpr
  intro d _
  intro hcontra
  rw [Bool.and_eq_true, decide_eq_true_eq, decide_eq_true_eq] at hcontra
  obtain ⟨⟨hu, hc, ht, hr⟩, hk⟩ := hcontra
  refine hk ⟨hu, hc, fun kv hkv => ?_⟩
  rcases List.mem_cons.mp hkv with rfl | hkv2
  · exact hr
  rcases List.mem_cons.mp hkv2 with rfl | hkv3
  · exact ht
  exact absurd hkv3 (List.not_mem_nil kv)

/-- The metadata row built by the sync upsert exposes the record type, the
record id and the verbatim data payload. -/
theorem sync_metadata_fields (app : Application) (text ts : String) :
    metaText (buildRowMetadata (applicationSyncMetadata app text ts) text ts)
      "record_type" = some "application" ∧
    metaText (buildRowMetadata (applicationSyncMetadata app text ts) text ts)
      "record_id" = some app.id ∧
    jsonGet (buildRowMetadata (applicationSyncMetadata app text ts) text ts)
      "data" = some app.to_dict :=
  ⟨rfl, rfl, rfl⟩

/-- One sync call leaves exactly the freshly inserted document as the
record's representative, whatever the table held before. -/
theorem sync_filter_singleton (L : List Doc) (uid : String)
    (app : Application) (emb : List ℚ) (nid ts : String) (now : Nat) :
    (sync_application_to_vector_store L uid app emb nid ts now).filter
      (fun d => matchesLogicalRecord uid "applications" "application" app.id d)
      = [{ docId := nid, user_id := uid, collection_name := "applications",
           text := format_application_text app, embedding := emb,
           metadata := buildRowMetadata
             (applicationSyncMetadata app (format_application_text app) ts)
             (format_application_text app) ts,
           created_at := now, updated_at := now }] := by
  unfold sync_application_to_vector_store
  rw [if_neg (format_application_text_ne_empty app)]
  unfold add_texts_single
  rw [List.filter_append,
    filter_delete_by_metadata
      ((migrate_legacy_user_data L uid "applications").1) uid "applications"
      "application" app.id,
    List.nil_append]
  have hmatch : matchesLogicalRecord uid "applications" "application" app.id
      { docId := nid, user_id := uid, collection_name := "applications",
        text := format_application_text app, embedding := emb,
        metadata := buildRowMetadata
          (applicationSyncMetadata app (format_application_text app) ts)
          (format_application_text app) ts,
        created_at := now, updated_at := now } :=
    ⟨rfl, rfl, (sync_metadata_fields app _ ts).1,
      (sync_metadata_fields app _ ts).2.1⟩
  simp [hmatch]

/-- C1.  Upserting the same `(tenant, "applications", "application",
record_id)` twice with different payloads leaves exactly one document for
that logical record, and its `data` is the second call's payload. -/
theorem upsert_idempotent (db : List Doc) (uid : String)
    (app1 app2 : Application) (emb1 emb2 : List ℚ)
    (id1 id2 ts1 ts2 : String) (now1 now2 : Nat)
    (_hid : app1.id = app2.id) (_hdata : app1.to_dict ≠ app2.to_dict) :
    ((sync_application_to_vector_store
        (sync_application_to_vector_store db uid app1 emb1 id1 ts1 now1)
        uid app2 emb2 id2 ts2 now2).filter
      (fun d => matchesLogicalRecord uid "applications" "application"
        app2.id d)).map (fun d => jsonGet d.metadata "data")
      = [some app2.to_dict] ∧
    ((sync_application_to_vector_store
        (sync_application_to_vector_store db uid app1 emb1 id1 ts1 now1)
        uid app2 emb2 id2 ts2 now2).filter
      (fun d => matchesLogicalRecord uid "applications" "application"
        app2.id d)).length = 1 := by
  rw [sync_filter_singleton]
  exact ⟨by rw [List.map_singleton, (sync_metadata_fields app2 _ ts2).2.2],
         rfl⟩

/-- First witness payload. -/
def appW1 : Application :=
  { company := "Acme", role := "ML Engineer", status := "applied",
    applied_date := "2025-01-01", id := "app_1" }

/-- Second witness payload: same id, different status. -/
def appW2 : Application :=
  { company := "Acme", role := "ML Engineer", status := "interview",
    applied_date := "2025-01-01", id := "app_1" }

/-- Witness for C1 on an initially empty table. -/
theorem upsert_idempotent_witness :
    appW1.id = appW2.id ∧ appW1.to_dict ≠ appW2.to_dict ∧
    ((sync_application_to_vector_store
        (sync_application_to_vector_store [] "u1" appW1 [1] "d1" "t1" 0)
        "u1" appW2 [2] "d2" "t2" 1).filter
      (fun d => matchesLogicalRecord "u1" "applications" "application"
        appW2.id d)).length = 1 := by
  have hdata : appW1.to_dict ≠ appW2.to_dict := by
    simp [Application.to_dict, appW1, appW2]
  exact ⟨rfl, hdata,
    (upsert_idempotent [] "u1" appW1 appW2 [1] [2] "d1" "d2" "t1" "t2" 0 1
      rfl hdata).2⟩

end JobMaster
